import Mathlib

/-!
# Verification of the AutoFix Reducers core
  (`BvdK.extension/.../Beck&vd_kroef_bv_02.pushbutton/script.py`)

Shallow embedding of the connector-graph traversal, geometric classification
and transactional reconfiguration engine of the repository.

Modelling conventions:
* Revit element identities are natural numbers; a `Doc` is the snapshot of
  pipes and family-instance fittings visible to the run.
* Stored scalar attributes (diameters, curve endpoints) are exact rationals
  (every concrete IEEE double is a rational); derived geometry (the
  `XYZ.Normalize`, `DotProduct`, `CrossProduct` host calls) is real-valued.
* A connector is modelled by the list of element ids owned by its `AllRefs`
  cross references.
* The Revit `Transaction` is modelled by its documented snapshot/rollback
  semantics: a failing unit restores the pre-call state.
* Host faults are modelled explicitly where the source can observe them:
  `Parameter.Set` may fail (caught inside `set_yesno_param`'s inner `try`),
  `LookupParameter` may fault (propagates to `try_update_fitting`'s
  `except`), and `FlipHand` may fault.
* A pipe's `Location.Curve`, when retrievable, is a non-degenerate
  two-point centerline (the host rejects zero-length curves); a missing or
  degenerate centerline is the `none` case, observed by the source as the
  caught exception in `get_direction_vector`.
-/

/-- Exact-rational 3d point/vector: the stored coordinates of the model. -/
structure VecQ where
  x : ℚ
  y : ℚ
  z : ℚ
deriving DecidableEq, Repr

instance : Sub VecQ := ⟨fun a b => ⟨a.x - b.x, a.y - b.y, a.z - b.z⟩⟩

/-- Revit `StorageType` of a parameter. -/
inductive StorageTy where
  | integer
  | double
  | text
  | elementId
deriving DecidableEq, Repr

/-- A named parameter slot on an element: its storage kind, current
(integer-backed) value, and whether a `Parameter.Set` call on it faults. -/
structure Param where
  storage : StorageTy
  value : Int
  setFaults : Bool
deriving DecidableEq, Repr

/-- A `FamilyInstance` fitting: identity, family name, host liveness flags
(`IsValidObject` on the element, its symbol and its family), the parameter
store, connector cross references (owner ids per connector), orientation
state and fault-injection flags for `FlipHand` and `LookupParameter`. -/
structure Fitting where
  id : ℕ
  familyName : String
  valid : Bool
  symbolOk : Bool
  familyOk : Bool
  params : List (String × Param)
  connectors : List (List ℕ)
  canFlipHand : Bool
  flipFaults : Bool
  flipped : Bool
  faultyLookups : List String
deriving DecidableEq, Repr

/-- A pipe segment: identity, type name, diameter (internal units, feet),
optional two-point centerline (non-degenerate when retrievable — the host
rejects zero-length curves), and connector cross references. -/
structure Pipe where
  id : ℕ
  name : String
  diameter : ℚ
  location : Option {c : VecQ × VecQ // c.1 ≠ c.2}
  connectors : List (List ℕ)
deriving DecidableEq

/-- The document snapshot visible to one run. -/
structure Doc where
  pipes : List Pipe
  fittings : List Fitting
deriving DecidableEq

/-- An element as returned by `Doc.GetElement`. -/
inductive Element where
  | pipe (p : Pipe)
  | fitting (f : Fitting)
deriving DecidableEq

/-- `doc.GetElement(id)` over the snapshot. -/
def getElement (d : Doc) (i : ℕ) : Option Element :=
  match d.pipes.find? (fun p => p.id == i) with
  | some p => some (.pipe p)
  | none => (d.fittings.find? (fun f => f.id == i)).map .fitting

/-- Fitting lookup by id. -/
def getFitting (d : Doc) (i : ℕ) : Option Fitting :=
  d.fittings.find? (fun f => f.id == i)

/-- Replace the fitting with the given id (in-place element mutation). -/
def setFitting (d : Doc) (f : Fitting) : Doc :=
  { d with fittings := d.fittings.map (fun g => if g.id == f.id then f else g) }

/-- Python `needle in hay` on strings, at the character-list level. -/
def charsInfix (needle : List Char) : List Char → Bool
  | [] => needle.isEmpty
  | c :: t => needle.isPrefixOf (c :: t) || charsInfix needle t

/-- Python `needle in hay` (substring containment). -/
def strContains (hay needle : String) : Bool :=
  charsInfix needle.data hay.data

/-- Python `s.startswith(pat)`. -/
def strStartsWith (s pat : String) : Bool :=
  pat.data.isPrefixOf s.data

/-- Python `s.lower()`. -/
def strLower (s : String) : String :=
  ⟨s.data.map Char.toLower⟩

/-- `is_pipe_of_type(pipe, name, min_diam_mm)`:
`name in pipe.Name and pipe.Diameter * 304.8 >= min_diam_mm`. -/
def is_pipe_of_type (pipe : Pipe) (name : String) (min_diam_mm : ℚ) : Bool :=
  strContains pipe.name name && decide (pipe.diameter * (3048 / 10) ≥ min_diam_mm)

/-- `elem.LookupParameter(param_name)` (the non-faulting result). -/
def lookupParam (f : Fitting) (nm : String) : Option Param :=
  ((f.params).find? (fun q => q.1 == nm)).map Prod.snd

/-- Update the value of the first parameter named `nm`. -/
def updateFirstParam : List (String × Param) → String → Int → List (String × Param)
  | [], _, _ => []
  | (n, p) :: rest, nm, v =>
      if n == nm then (n, { p with value := v }) :: rest
      else (n, p) :: updateFirstParam rest nm v

/-- Write an integer value into the named parameter of a fitting. -/
def setParamValue (f : Fitting) (nm : String) (v : Int) : Fitting :=
  { f with params := updateFirstParam f.params nm v }

/-- Current value of a named parameter, if present. -/
def getParamValue (f : Fitting) (nm : String) : Option Int :=
  (lookupParam f nm).map Param.value

/-- Python truthiness of the `on` argument (`True`/`False`/`None`). -/
def truthy : Option Bool → Bool
  | some b => b
  | none => false

/-- `set_yesno_param(elem, param_name, on)`:
looks the parameter up (`LookupParameter` may fault — that fault is *not*
caught here and escapes to the caller); when present with `Integer` storage
it sets `1 if on else 0`, swallowing any `Set` failure in the inner `try`. -/
def set_yesno_param (f : Fitting) (param_name : String) (onVal : Option Bool) :
    Except Unit Fitting :=
  if param_name ∈ f.faultyLookups then .error ()
  else
    match lookupParam f param_name with
    | some p =>
        if p.storage = StorageTy.integer then
          if p.setFaults then .ok f
          else .ok (setParamValue f param_name (if truthy onVal then 1 else 0))
        else .ok f
    | none => .ok f

/-- `try_update_fitting(fitting, param_map, flip)`: one Revit transaction.
All `set_yesno_param` calls and the optional `FlipHand` run inside it; any
escaping fault rolls the whole unit back to the pre-call fitting state and
returns `False`, otherwise the unit commits and returns `True`. -/
def try_update_fitting (f : Fitting) (param_map : List (String × Option Bool))
    (flip : Bool) : Fitting × Bool :=
  match param_map.foldlM (fun g nv => set_yesno_param g nv.1 nv.2) f with
  | .error _ => (f, false)
  | .ok f' =>
      if flip && f'.canFlipHand then
        if f'.flipFaults then (f, false)
        else ({ f' with flipped := !f'.flipped }, true)
      else (f', true)

/-- `is_reducer_fully_connected(fitting)`: at least two connector cross
references whose owner is not the fitting itself. -/
def is_reducer_fully_connected (f : Fitting) : Bool :=
  2 ≤ ((f.connectors.map (fun refs => refs.filter (fun r => r ≠ f.id))).flatten).length

/-- `get_branch_pipe`'s inner double loop: first `Pipe` owner among the
listed cross references whose id differs from the main pipe's. -/
def firstOtherPipe (d : Doc) (main_pipe_id : ℕ) : List ℕ → Option Pipe
  | [] => none
  | r :: rest =>
      match getElement d r with
      | some (.pipe p) =>
          if p.id ≠ main_pipe_id then some p else firstOtherPipe d main_pipe_id rest
      | _ => firstOtherPipe d main_pipe_id rest

/-- `get_branch_pipe(fitting, main_pipe_id)`. -/
def get_branch_pipe (d : Doc) (fitting : Fitting) (main_pipe_id : ℕ) : Option Pipe :=
  firstOtherPipe d main_pipe_id fitting.connectors.flatten

/-- The Tee plan of `auto_fix` (dict insertion order). -/
def teeParamMap (switch_ex : Option Bool) : List (String × Option Bool) :=
  [("kort_verloop (kleinste)", some true),
   ("kort_verloop (grootste)", some true),
   ("reducer_eccentric", some true),
   ("switch_excentriciteit", switch_ex),
   ("bend_visible", some true),
   ("bend_visible_preserve", some true)]

/-- The Elbow plan of `auto_fix`. -/
def elbowParamMap : List (String × Option Bool) :=
  [("2x45°", some false), ("buis_invogen", some false)]

/-- The Reducer neutral-reset plan of `auto_fix`. -/
def reducerParamMap : List (String × Option Bool) :=
  [("kort_verloop (kleinste)", some false),
   ("kort_verloop (grootste)", some false),
   ("switch_excentriciteit", some false),
   ("reducer_eccentric", some false)]

/-- Mutable orchestrator state: current document, visited-id set and the
two run counters. -/
structure RunState where
  doc : Doc
  visited : List ℕ
  updated : ℕ
  skipped : ℕ
deriving DecidableEq

/-- Real-valued 3d vector, as produced by the host geometry API. -/
structure VecR where
  x : ℝ
  y : ℝ
  z : ℝ

/-- Stored rational coordinates, seen as host (real) geometry. -/
def toVecR (v : VecQ) : VecR := ⟨(v.x : ℝ), (v.y : ℝ), (v.z : ℝ)⟩

/-- Squared Euclidean length. -/
noncomputable def VecR.normSq (v : VecR) : ℝ := v.x ^ 2 + v.y ^ 2 + v.z ^ 2

/-- Revit `XYZ.Normalize()`: divide by the length; a zero-length vector
normalizes to the zero vector (and indeed `x / 0 = 0` here). -/
noncomputable def VecR.norm1 (v : VecR) : VecR :=
  ⟨v.x / Real.sqrt v.normSq, v.y / Real.sqrt v.normSq, v.z / Real.sqrt v.normSq⟩

/-- Revit `XYZ.DotProduct`. -/
noncomputable def VecR.dot (a b : VecR) : ℝ := a.x * b.x + a.y * b.y + a.z * b.z

/-- Revit `XYZ.CrossProduct`. -/
noncomputable def VecR.cross (a b : VecR) : VecR :=
  ⟨a.y * b.z - a.z * b.y, a.z * b.x - a.x * b.z, a.x * b.y - a.y * b.x⟩

/-- Flow classification relative to the main direction. -/
inductive FlowDir where
  | withFlow
  | against
deriving DecidableEq

/-- Lateral side classification. -/
inductive Side where
  | right
  | left
deriving DecidableEq

/-- The flow stage of `determine_switch_excentriciteit`
(`dot > 0.7` → with, `dot < -0.7` → against, otherwise abstain). -/
noncomputable def flow_dir_of (dot : ℝ) : Option FlowDir :=
  if dot > 0.7 then some FlowDir.withFlow
  else if dot < -0.7 then some FlowDir.against
  else none

/-- The side stage of `determine_switch_excentriciteit`
(`cross_z > 0.1` → right, `cross_z < -0.1` → left, otherwise abstain). -/
noncomputable def side_of (cross_z : ℝ) : Option Side :=
  if cross_z > 0.1 then some Side.right
  else if cross_z < -0.1 then some Side.left
  else none

/-- The final logic table of `determine_switch_excentriciteit`. -/
def switch_table (side : Side) (flow_dir : FlowDir) : Bool :=
  match side, flow_dir with
  | Side.left, FlowDir.withFlow => false
  | Side.left, FlowDir.against => true
  | Side.right, FlowDir.withFlow => true
  | Side.right, FlowDir.against => false

/-- `determine_switch_excentriciteit(dir_main, dir_branch)`: the outer
`try/except` absorbs a `None` input (the `.Normalize()` attribute fault) as
a `None` result; otherwise both vectors are normalized, the flow and side
stages each may abstain (early `return None` in the source), and the final
table decides. -/
noncomputable def determine_switch_excentriciteit (dir_main dir_branch : Option VecR) :
    Option Bool :=
  match dir_main, dir_branch with
  | some m0, some b0 =>
      let m := m0.norm1
      let b := b0.norm1
      let dot := m.dot b
      let cross_z := (m.cross b).z
      match flow_dir_of dot, side_of cross_z with
      | some fd, some sd => some (switch_table sd fd)
      | _, _ => none
  | _, _ => none

/-- `get_direction_vector(pipe)`: normalized difference of the centerline
endpoints; the `try/except` turns a `None` pipe or an unretrievable
centerline into `None` (never an exception). -/
noncomputable def get_direction_vector (pipe : Option Pipe) : Option VecR :=
  match pipe with
  | none => none
  | some p =>
      match p.location with
      | none => none
      | some c => some (toVecR (c.val.2 - c.val.1)).norm1

/-- One iteration of the inner `for ref in conn.AllRefs` loop of the main
pass of `auto_fix`, for the cross reference with owner id `refId`.  The
visited set is extended *before* the validity and family checks; only a
valid `FamilyInstance` of a `NLRS_52_PIF_UN_PE multi T-stuk` family is
planned and applied.  `swOf` abstracts the branch resolution and geometric
classification (`switch_ex` in the source); the faithful instance is
`swPipeR` below. -/
def processRef (swOf : Doc → Fitting → Option Bool) (st : RunState) (refId : ℕ) :
    RunState :=
  if refId ∈ st.visited then st
  else
    let st1 : RunState := { st with visited := refId :: st.visited }
    match getElement st1.doc refId with
    | none => st1
    | some (Element.pipe _) => st1
    | some (Element.fitting other) =>
        if !other.valid then st1
        else if !other.symbolOk then st1
        else if !other.familyOk then st1
        else if other.familyName = "" then st1
        else if !strStartsWith other.familyName "NLRS_52_PIF_UN_PE multi T-stuk" then st1
        else
          let switch_ex := swOf st1.doc other
          let param_map := teeParamMap switch_ex
          let res := try_update_fitting other param_map false
          if res.2 then
            { st1 with doc := setFitting st1.doc res.1, updated := st1.updated + 1 }
          else
            { st1 with skipped := st1.skipped + 1 }

/-- One iteration of the `for pipe in pipes` loop of `auto_fix`: skip pipes
that are not qualifying mains, otherwise walk every cross reference of
every connector.  `swPipe pipe` packages the per-pipe `main_dir`
computation together with the classifier. -/
def processPipe (swPipe : Pipe → Doc → Fitting → Option Bool) (st : RunState)
    (pipe : Pipe) : RunState :=
  if !is_pipe_of_type pipe "NLRS_52_PI_PE buis" 160 then st
  else
    pipe.connectors.foldl (fun s refs => refs.foldl (processRef (swPipe pipe)) s) st

/-- Book-keeping shared by the Elbow and Reducer branches: commit the
transaction result and bump exactly one counter. -/
def bumpCounters (st : RunState) (res : Fitting × Bool) : RunState :=
  if res.2 then
    { st with doc := setFitting st.doc res.1, updated := st.updated + 1 }
  else
    { st with skipped := st.skipped + 1 }

/-- One iteration of the second (`for f in fittings`) pass of `auto_fix`:
liveness checks (the `try/except: continue`), lower-cased family-name
dispatch to the Elbow (`multibocht`) or Reducer (`multireducer`) plan, with
the Reducer connectivity guard. -/
def processFitting2 (st : RunState) (fid : ℕ) : RunState :=
  match getFitting st.doc fid with
  | none => st
  | some f =>
      if !f.valid then st
      else if !f.symbolOk then st
      else if !f.familyOk then st
      else
        let name := strLower f.familyName
        if strContains name "multibocht" then
          bumpCounters st (try_update_fitting f elbowParamMap false)
        else if strContains name "multireducer" then
          if is_reducer_fully_connected f then { st with skipped := st.skipped + 1 }
          else bumpCounters st (try_update_fitting f reducerParamMap false)
        else st

/-- The whole `auto_fix` run, parameterized by the per-pipe classifier:
snapshot the pipe and fitting collections, run the main-segment pass, then
the all-fittings pass; the outer `TransactionGroup` only squashes undo
history and has no effect on the computed state. -/
def runWith (swPipe : Pipe → Doc → Fitting → Option Bool) (d : Doc) : RunState :=
  let st0 : RunState := ⟨d, [], 0, 0⟩
  let st1 := d.pipes.foldl (processPipe swPipe) st0
  (d.fittings.map Fitting.id).foldl processFitting2 st1

/-- The source's per-pipe classifier: `main_dir` from the qualifying pipe,
`branch_pipe`/`branch_dir` resolved against the current document, then
`determine_switch_excentriciteit`. -/
noncomputable def swPipeR (pipe : Pipe) : Doc → Fitting → Option Bool :=
  fun d other =>
    let main_dir := get_direction_vector (some pipe)
    let branch_pipe := get_branch_pipe d other pipe.id
    let branch_dir := get_direction_vector branch_pipe
    determine_switch_excentriciteit main_dir branch_dir

/-- `auto_fix()`: the complete run over a document snapshot. -/
noncomputable def auto_fix (d : Doc) : RunState := runWith swPipeR d

/-! ## Rational evaluation of the classifier

`determine_switch_excentriciteit` only compares a normalized dot product
and cross-product component against fixed thresholds, so its decision on
vectors with rational coordinates is equivalent to sign and squared
comparisons over `ℚ`.  The computable evaluator below is proved equal to
the real-valued classifier; every concrete run can then be evaluated by
`decide`. -/

/-- Squared length over `ℚ`. -/
def VecQ.normSq (v : VecQ) : ℚ := v.x ^ 2 + v.y ^ 2 + v.z ^ 2

/-- Dot product over `ℚ`. -/
def VecQ.dot (a b : VecQ) : ℚ := a.x * b.x + a.y * b.y + a.z * b.z

/-- Z-component of the cross product over `ℚ`. -/
def VecQ.crossZ (a b : VecQ) : ℚ := a.x * b.y - a.y * b.x

/-- Rational form of the flow stage, on unnormalized data:
`d / √nn > 0.7 ↔ 0 < d ∧ 49·nn < 100·d²` (and symmetrically). -/
def flowQ (d nn : ℚ) : Option FlowDir :=
  if 0 < d ∧ 49 * nn < 100 * d ^ 2 then some FlowDir.withFlow
  else if d < 0 ∧ 49 * nn < 100 * d ^ 2 then some FlowDir.against
  else none

/-- Rational form of the side stage, on unnormalized data. -/
def sideQ (cz nn : ℚ) : Option Side :=
  if 0 < cz ∧ nn < 100 * cz ^ 2 then some Side.right
  else if cz < 0 ∧ nn < 100 * cz ^ 2 then some Side.left
  else none

/-- Rational evaluator for `determine_switch_excentriciteit`, taking the
*unnormalized* rational direction data. -/
def switchQ (dm db : Option VecQ) : Option Bool :=
  match dm, db with
  | some v, some w =>
      match flowQ (v.dot w) (v.normSq * w.normSq),
            sideQ (v.crossZ w) (v.normSq * w.normSq) with
      | some fd, some sd => some (switch_table sd fd)
      | _, _ => none
  | _, _ => none

/-- Unnormalized rational direction data of a pipe (endpoint difference). -/
def dirDiffQ (pipe : Option Pipe) : Option VecQ :=
  pipe.bind fun p => p.location.map fun c => c.val.2 - c.val.1

/-- Computable form of the per-pipe classifier `swPipeR`. -/
def swPipeQ (pipe : Pipe) : Doc → Fitting → Option Bool :=
  fun d other =>
    switchQ (dirDiffQ (some pipe)) (dirDiffQ (get_branch_pipe d other pipe.id))

/-- The flow classification of a vector pair, as the source computes it
(normalize both, then threshold the dot product). -/
noncomputable def flowClass (v w : VecR) : Option FlowDir :=
  flow_dir_of (v.norm1.dot w.norm1)

instance : Neg VecR := ⟨fun v => ⟨-v.x, -v.y, -v.z⟩⟩

/-- Shape equality of fittings: everything except the parameter values. -/
def sameShape (f g : Fitting) : Prop :=
  g.id = f.id ∧ g.familyName = f.familyName ∧ g.valid = f.valid ∧
  g.symbolOk = f.symbolOk ∧ g.familyOk = f.familyOk ∧
  g.connectors = f.connectors ∧ g.canFlipHand = f.canFlipHand ∧
  g.flipFaults = f.flipFaults ∧ g.flipped = f.flipped ∧
  g.faultyLookups = f.faultyLookups

/-- The pure effect of a fault-free plan application: every assignment
written in order as `1 if on else 0`. -/
def planFold (f : Fitting) (pm : List (String × Option Bool)) : Fitting :=
  pm.foldl (fun g nv => setParamValue g nv.1 (if truthy nv.2 then 1 else 0)) f

/-- A parameter is writable: present, integer-backed, and fault-free
(both for `LookupParameter` and `Set`). -/
def paramWritable (f : Fitting) (nm : String) : Prop :=
  nm ∉ f.faultyLookups ∧
  ∃ p, lookupParam f nm = some p ∧ p.storage = StorageTy.integer ∧
    p.setFaults = false

/-- Value of a named parameter of a fitting of the document. -/
def paramOfDoc (d : Doc) (i : ℕ) (nm : String) : Option Int :=
  (getFitting d i).bind fun f => getParamValue f nm

/-! ## Concrete documents and fittings used by witnesses -/

/-- Tee parameter store with `switch_excentriciteit` initially `1`. -/
def teeParams1 : List (String × Param) :=
  [("kort_verloop (kleinste)", ⟨StorageTy.integer, 0, false⟩),
   ("kort_verloop (grootste)", ⟨StorageTy.integer, 0, false⟩),
   ("reducer_eccentric", ⟨StorageTy.integer, 0, false⟩),
   ("switch_excentriciteit", ⟨StorageTy.integer, 1, false⟩),
   ("bend_visible", ⟨StorageTy.integer, 0, false⟩),
   ("bend_visible_preserve", ⟨StorageTy.integer, 0, false⟩)]

/-- Tee parameter store with every value `0`. -/
def teeParams0 : List (String × Param) :=
  [("kort_verloop (kleinste)", ⟨StorageTy.integer, 0, false⟩),
   ("kort_verloop (grootste)", ⟨StorageTy.integer, 0, false⟩),
   ("reducer_eccentric", ⟨StorageTy.integer, 0, false⟩),
   ("switch_excentriciteit", ⟨StorageTy.integer, 0, false⟩),
   ("bend_visible", ⟨StorageTy.integer, 0, false⟩),
   ("bend_visible_preserve", ⟨StorageTy.integer, 0, false⟩)]

def demoTee1 : Fitting :=
  ⟨2, "NLRS_52_PIF_UN_PE multi T-stuk_geb", true, true, true, teeParams1,
   [[1], [3]], false, false, false, []⟩

def demoMain1 : Pipe :=
  ⟨1, "NLRS_52_PI_PE buis (OD)_geb", 1,
   some ⟨(⟨0, 0, 0⟩, ⟨1, 0, 0⟩), by decide⟩, [[2]]⟩

def demoBranch1 : Pipe :=
  ⟨3, "branch", 1, some ⟨(⟨0, 0, 0⟩, ⟨0, 1, 0⟩), by decide⟩, [[2]]⟩

/-- Main direction `(1,0,0)`, branch direction `(0,1,0)`: dot is zero, the
classifier abstains. -/
def demoDoc1 : Doc := ⟨[demoMain1, demoBranch1], [demoTee1]⟩

def demoTee2 : Fitting :=
  ⟨3, "NLRS_52_PIF_UN_PE multi T-stuk_geb", true, true, true, teeParams0,
   [[1], [4]], false, false, false, []⟩

def demoMain2a : Pipe :=
  ⟨1, "NLRS_52_PI_PE buis (OD)_geb", 1,
   some ⟨(⟨0, 0, 0⟩, ⟨1, 0, 0⟩), by decide⟩, [[3]]⟩

def demoMain2b : Pipe :=
  ⟨2, "NLRS_52_PI_PE buis (OD)_geb", 1,
   some ⟨(⟨10, 0, 0⟩, ⟨11, 0, 0⟩), by decide⟩, [[3]]⟩

def demoBranch2 : Pipe :=
  ⟨4, "branch", 1, some ⟨(⟨0, 0, 0⟩, ⟨1, 1 / 5, 0⟩), by decide⟩, [[3]]⟩

/-- One Tee reachable from two distinct qualifying main segments. -/
def demoDoc2 : Doc := ⟨[demoMain2a, demoMain2b, demoBranch2], [demoTee2]⟩

/-- Reducer parameter store, every value `1`. -/
def redParams1 : List (String × Param) :=
  [("kort_verloop (kleinste)", ⟨StorageTy.integer, 1, false⟩),
   ("kort_verloop (grootste)", ⟨StorageTy.integer, 1, false⟩),
   ("switch_excentriciteit", ⟨StorageTy.integer, 1, false⟩),
   ("reducer_eccentric", ⟨StorageTy.integer, 1, false⟩)]

/-- Fitting whose `switch_excentriciteit` lookup faults mid-plan. -/
def demoAtomF : Fitting :=
  ⟨7, "x", true, true, true, redParams1, [], false, false, false,
   ["switch_excentriciteit"]⟩

/-- The same fitting without the injected fault. -/
def demoOkF : Fitting :=
  ⟨7, "x", true, true, true, redParams1, [], false, false, false, []⟩

/-- A fully connected multireducer (two foreign owners). -/
def demoRedF : Fitting :=
  ⟨9, "NLRS_52_PIF_UN_PE multireducer_geb", true, true, true, redParams1,
   [[5], [6]], false, false, false, []⟩

def demoDocRed : Doc := ⟨[], [demoRedF]⟩

/-- A multireducer with a single foreign owner (not fully connected). -/
def demoRedF1 : Fitting :=
  ⟨9, "NLRS_52_PIF_UN_PE multireducer_geb", true, true, true, redParams1,
   [[5]], false, false, false, []⟩

def demoElbF : Fitting :=
  ⟨11, "NLRS_52_PID_UN_PE multibocht_geb", true, true, true,
   [("2x45°", ⟨StorageTy.integer, 1, false⟩),
    ("buis_invogen", ⟨StorageTy.integer, 1, false⟩)],
   [], false, false, false, []⟩

def demoOtherF : Fitting :=
  ⟨13, "Generic symbol", true, true, true,
   [("p", ⟨StorageTy.integer, 7, false⟩)], [], false, false, false, []⟩

/-- Fitting with a double-storage, a set-faulting and a plain parameter. -/
def demoMixF : Fitting :=
  ⟨15, "y", true, true, true,
   [("a", ⟨StorageTy.double, 3, false⟩),
    ("c", ⟨StorageTy.integer, 4, true⟩),
    ("d", ⟨StorageTy.integer, 0, false⟩)], [], false, false, false, []⟩

def demoPipe7 : Pipe :=
  ⟨21, "p7", 1, some ⟨(⟨0, 0, 0⟩, ⟨3, 4, 0⟩), by decide⟩, []⟩

theorem VecQ.sub_def (a b : VecQ) : a - b = ⟨a.x - b.x, a.y - b.y, a.z - b.z⟩ := rfl

theorem VecR.normSq_nonneg (v : VecR) : 0 ≤ v.normSq := by
  unfold VecR.normSq; positivity

theorem VecR.comps_of_normSq_zero {v : VecR} (h : v.normSq = 0) :
    v.x = 0 ∧ v.y = 0 ∧ v.z = 0 := by
  unfold VecR.normSq at h
  refine ⟨?_, ?_, ?_⟩
  · have hx : v.x ^ 2 = 0 := by nlinarith [sq_nonneg v.y, sq_nonneg v.z]
    exact (pow_eq_zero_iff (two_ne_zero)).mp hx
  · have hy : v.y ^ 2 = 0 := by nlinarith [sq_nonneg v.x, sq_nonneg v.z]
    exact (pow_eq_zero_iff (two_ne_zero)).mp hy
  · have hz : v.z ^ 2 = 0 := by nlinarith [sq_nonneg v.x, sq_nonneg v.y]
    exact (pow_eq_zero_iff (two_ne_zero)).mp hz

theorem VecR.norm1_normSq {v : VecR} (h : v.normSq ≠ 0) :
    (v.norm1).normSq = 1 := by
  have hnn := v.normSq_nonneg
  have hs2 : Real.sqrt v.normSq ^ 2 = v.normSq := Real.sq_sqrt hnn
  show (v.x / Real.sqrt v.normSq) ^ 2 + (v.y / Real.sqrt v.normSq) ^ 2 +
      (v.z / Real.sqrt v.normSq) ^ 2 = 1
  rw [div_pow, div_pow, div_pow, div_add_div_same, div_add_div_same, hs2]
  exact div_self h

/-- Revit normalization is idempotent (zero stays zero, a unit vector is
divided by one). -/
theorem VecR.norm1_norm1 (v : VecR) : v.norm1.norm1 = v.norm1 := by
  by_cases h : v.normSq = 0
  · have hv0 : v = ⟨0, 0, 0⟩ := by
      obtain ⟨hx, hy, hz⟩ := VecR.comps_of_normSq_zero h
      calc v = ⟨v.x, v.y, v.z⟩ := rfl
        _ = ⟨0, 0, 0⟩ := by rw [hx, hy, hz]
    have hn : (⟨0, 0, 0⟩ : VecR).norm1 = ⟨0, 0, 0⟩ := by
      show (⟨0 / _, 0 / _, 0 / _⟩ : VecR) = _
      simp only [zero_div]
    rw [hv0, hn, hn]
  · have h1 : (v.norm1).normSq = 1 := VecR.norm1_normSq h
    show (⟨v.norm1.x / Real.sqrt (v.norm1.normSq), _, _⟩ : VecR) = v.norm1
    rw [h1, Real.sqrt_one, div_one, div_one, div_one]

theorem VecR.dot_norm1 (u w : VecR) :
    u.norm1.dot w.norm1 = u.dot w / Real.sqrt (u.normSq * w.normSq) := by
  show u.x / _ * (w.x / _) + u.y / _ * (w.y / _) + u.z / _ * (w.z / _) = _
  rw [div_mul_div_comm, div_mul_div_comm, div_mul_div_comm,
    div_add_div_same, div_add_div_same, Real.sqrt_mul u.normSq_nonneg]
  rfl

theorem VecR.crossZ_norm1 (u w : VecR) :
    (u.norm1.cross w.norm1).z = (u.cross w).z / Real.sqrt (u.normSq * w.normSq) := by
  show u.x / _ * (w.y / _) - u.y / _ * (w.x / _) = _
  rw [div_mul_div_comm, div_mul_div_comm, div_sub_div_same,
    Real.sqrt_mul u.normSq_nonneg]
  rfl

theorem div_sqrt_gt_iff {d nn c : ℝ} (hc : 0 < c) (hnn : 0 ≤ nn)
    (hz : nn = 0 → d = 0) :
    (c < d / Real.sqrt nn) ↔ (0 < d ∧ c ^ 2 * nn < d ^ 2) := by
  rcases hnn.eq_or_lt with h0 | hpos
  · rw [← h0, hz h0.symm]
    simp only [Real.sqrt_zero, div_zero, lt_self_iff_false, false_and, iff_false,
      not_lt]
    exact hc.le
  · have hs : 0 < Real.sqrt nn := Real.sqrt_pos.mpr hpos
    have hs2 : Real.sqrt nn ^ 2 = nn := Real.sq_sqrt hnn
    rw [lt_div_iff hs]
    constructor
    · intro h1
      have hcs : 0 < c * Real.sqrt nn := mul_pos hc hs
      refine ⟨hcs.trans h1, ?_⟩
      nlinarith [h1, hcs, hs2]
    · rintro ⟨hd, h2⟩
      have h3 : (c * Real.sqrt nn) ^ 2 < d ^ 2 := by rw [mul_pow, hs2]; exact h2
      exact lt_of_pow_lt_pow_left 2 hd.le h3

theorem div_sqrt_lt_neg_iff {d nn c : ℝ} (hc : 0 < c) (hnn : 0 ≤ nn)
    (hz : nn = 0 → d = 0) :
    (d / Real.sqrt nn < -c) ↔ (d < 0 ∧ c ^ 2 * nn < d ^ 2) := by
  have h := div_sqrt_gt_iff (d := -d) hc hnn (fun h0 => by rw [hz h0, neg_zero])
  rw [neg_div] at h
  have hdd : (-d) ^ 2 = d ^ 2 := by ring
  rw [hdd] at h
  constructor
  · intro h1
    obtain ⟨ha, hb⟩ := h.mp (by linarith)
    exact ⟨by linarith, hb⟩
  · rintro ⟨hd, h2⟩
    have := h.mpr ⟨by linarith, h2⟩
    linarith

theorem toVecR_dot (v w : VecQ) : (toVecR v).dot (toVecR w) = ((v.dot w : ℚ) : ℝ) := by
  simp only [toVecR, VecR.dot, VecQ.dot]
  push_cast
  ring

theorem toVecR_crossZ (v w : VecQ) :
    ((toVecR v).cross (toVecR w)).z = ((v.crossZ w : ℚ) : ℝ) := by
  simp only [toVecR, VecR.cross, VecQ.crossZ]
  push_cast
  ring

theorem toVecR_normSq (v : VecQ) : (toVecR v).normSq = ((v.normSq : ℚ) : ℝ) := by
  simp only [toVecR, VecR.normSq, VecQ.normSq]
  push_cast
  ring

theorem VecQ.comps_of_normSqQ_zero {v : VecQ} (h : v.normSq = 0) :
    v.x = 0 ∧ v.y = 0 ∧ v.z = 0 := by
  unfold VecQ.normSq at h
  refine ⟨?_, ?_, ?_⟩
  · have hx : v.x ^ 2 = 0 := by nlinarith [sq_nonneg v.y, sq_nonneg v.z]
    exact (pow_eq_zero_iff (two_ne_zero)).mp hx
  · have hy : v.y ^ 2 = 0 := by nlinarith [sq_nonneg v.x, sq_nonneg v.z]
    exact (pow_eq_zero_iff (two_ne_zero)).mp hy
  · have hz : v.z ^ 2 = 0 := by nlinarith [sq_nonneg v.x, sq_nonneg v.y]
    exact (pow_eq_zero_iff (two_ne_zero)).mp hz

theorem VecQ.degenerate {v w : VecQ} (h : v.normSq * w.normSq = 0) :
    v.dot w = 0 ∧ v.crossZ w = 0 := by
  rcases mul_eq_zero.mp h with h' | h' <;>
    obtain ⟨hx, hy, hz⟩ := VecQ.comps_of_normSqQ_zero h' <;>
    constructor <;>
    simp [VecQ.dot, VecQ.crossZ, hx, hy, hz]

theorem flowR_cast (dq nnq : ℚ) (hnn : 0 ≤ nnq) (hz : nnq = 0 → dq = 0) :
    flow_dir_of ((dq : ℝ) / Real.sqrt ((nnq : ℚ) : ℝ)) = flowQ dq nnq := by
  have hnnR : (0 : ℝ) ≤ ((nnq : ℚ) : ℝ) := by exact_mod_cast hnn
  have hzR : ((nnq : ℚ) : ℝ) = 0 → ((dq : ℚ) : ℝ) = 0 := fun h => by
    have h' : nnq = 0 := by exact_mod_cast h
    exact_mod_cast hz h'
  have h07 : ((0.7 : ℝ)) ^ 2 = 49 / 100 := by norm_num
  have h1 : ((0.7 : ℝ) < (dq : ℝ) / Real.sqrt ((nnq : ℚ) : ℝ)) ↔
      (0 < dq ∧ 49 * nnq < 100 * dq ^ 2) := by
    rw [div_sqrt_gt_iff (by norm_num) hnnR hzR, h07]
    constructor
    · rintro ⟨ha, hb⟩
      refine ⟨by exact_mod_cast ha, ?_⟩
      have hb' : (49 : ℝ) * (nnq : ℝ) < 100 * (dq : ℝ) ^ 2 := by linarith
      exact_mod_cast hb'
    · rintro ⟨ha, hb⟩
      refine ⟨by exact_mod_cast ha, ?_⟩
      have hb' : (49 : ℝ) * (nnq : ℝ) < 100 * (dq : ℝ) ^ 2 := by exact_mod_cast hb
      linarith
  have h2 : ((dq : ℝ) / Real.sqrt ((nnq : ℚ) : ℝ) < -(0.7 : ℝ)) ↔
      (dq < 0 ∧ 49 * nnq < 100 * dq ^ 2) := by
    rw [div_sqrt_lt_neg_iff (by norm_num) hnnR hzR, h07]
    constructor
    · rintro ⟨ha, hb⟩
      refine ⟨by exact_mod_cast ha, ?_⟩
      have hb' : (49 : ℝ) * (nnq : ℝ) < 100 * (dq : ℝ) ^ 2 := by linarith
      exact_mod_cast hb'
    · rintro ⟨ha, hb⟩
      refine ⟨by exact_mod_cast ha, ?_⟩
      have hb' : (49 : ℝ) * (nnq : ℝ) < 100 * (dq : ℝ) ^ 2 := by exact_mod_cast hb
      linarith
  unfold flow_dir_of flowQ
  simp only [gt_iff_lt, h1, h2]

theorem sideR_cast (cq nnq : ℚ) (hnn : 0 ≤ nnq) (hz : nnq = 0 → cq = 0) :
    side_of ((cq : ℝ) / Real.sqrt ((nnq : ℚ) : ℝ)) = sideQ cq nnq := by
  have hnnR : (0 : ℝ) ≤ ((nnq : ℚ) : ℝ) := by exact_mod_cast hnn
  have hzR : ((nnq : ℚ) : ℝ) = 0 → ((cq : ℚ) : ℝ) = 0 := fun h => by
    have h' : nnq = 0 := by exact_mod_cast h
    exact_mod_cast hz h'
  have h01 : ((0.1 : ℝ)) ^ 2 = 1 / 100 := by norm_num
  have h1 : ((0.1 : ℝ) < (cq : ℝ) / Real.sqrt ((nnq : ℚ) : ℝ)) ↔
      (0 < cq ∧ nnq < 100 * cq ^ 2) := by
    rw [div_sqrt_gt_iff (by norm_num) hnnR hzR, h01]
    constructor
    · rintro ⟨ha, hb⟩
      refine ⟨by exact_mod_cast ha, ?_⟩
      have hb' : ((nnq : ℚ) : ℝ) < 100 * (cq : ℝ) ^ 2 := by linarith
      exact_mod_cast hb'
    · rintro ⟨ha, hb⟩
      refine ⟨by exact_mod_cast ha, ?_⟩
      have hb' : ((nnq : ℚ) : ℝ) < 100 * (cq : ℝ) ^ 2 := by exact_mod_cast hb
      linarith
  have h2 : ((cq : ℝ) / Real.sqrt ((nnq : ℚ) : ℝ) < -(0.1 : ℝ)) ↔
      (cq < 0 ∧ nnq < 100 * cq ^ 2) := by
    rw [div_sqrt_lt_neg_iff (by norm_num) hnnR hzR, h01]
    constructor
    · rintro ⟨ha, hb⟩
      refine ⟨by exact_mod_cast ha, ?_⟩
      have hb' : ((nnq : ℚ) : ℝ) < 100 * (cq : ℝ) ^ 2 := by linarith
      exact_mod_cast hb'
    · rintro ⟨ha, hb⟩
      refine ⟨by exact_mod_cast ha, ?_⟩
      have hb' : ((nnq : ℚ) : ℝ) < 100 * (cq : ℝ) ^ 2 := by exact_mod_cast hb
      linarith
  unfold side_of sideQ
  simp only [gt_iff_lt, h1, h2]

/-- The real classifier on rationally-coordinated host vectors coincides
with the rational evaluator on the unnormalized data. -/
theorem switch_agree (dm db : Option VecQ) :
    determine_switch_excentriciteit (dm.map fun v => (toVecR v).norm1)
      (db.map fun v => (toVecR v).norm1) = switchQ dm db := by
  cases dm with
  | none => cases db <;> rfl
  | some v =>
    cases db with
    | none => rfl
    | some w =>
      have hnn : (0 : ℚ) ≤ v.normSq * w.normSq := by
        have h1 : (0 : ℚ) ≤ v.normSq := by unfold VecQ.normSq; positivity
        have h2 : (0 : ℚ) ≤ w.normSq := by unfold VecQ.normSq; positivity
        exact mul_nonneg h1 h2
      have lhs_eq : determine_switch_excentriciteit (some ((toVecR v).norm1))
          (some ((toVecR w).norm1)) =
          match flow_dir_of ((((toVecR v).norm1).norm1).dot (((toVecR w).norm1).norm1)),
                side_of (((((toVecR v).norm1).norm1).cross
                  (((toVecR w).norm1).norm1)).z) with
          | some fd, some sd => some (switch_table sd fd)
          | _, _ => none := rfl
      show determine_switch_excentriciteit (some ((toVecR v).norm1))
          (some ((toVecR w).norm1)) = switchQ (some v) (some w)
      rw [lhs_eq, VecR.norm1_norm1, VecR.norm1_norm1, VecR.dot_norm1,
        VecR.crossZ_norm1, toVecR_dot, toVecR_crossZ, toVecR_normSq, toVecR_normSq,
        ← Rat.cast_mul,
        flowR_cast _ _ hnn (fun h => (VecQ.degenerate h).1),
        sideR_cast _ _ hnn (fun h => (VecQ.degenerate h).2)]
      rfl

theorem get_dir_eq (p : Option Pipe) :
    get_direction_vector p = (dirDiffQ p).map fun v => (toVecR v).norm1 := by
  cases p with
  | none => rfl
  | some pipe => cases h : pipe.location <;> simp [get_direction_vector, dirDiffQ, h]

/-- The faithful per-pipe classifier equals its computable form. -/
theorem swPipe_agree : swPipeR = swPipeQ := by
  funext pipe d other
  show determine_switch_excentriciteit (get_direction_vector (some pipe))
      (get_direction_vector (get_branch_pipe d other pipe.id)) =
    switchQ (dirDiffQ (some pipe)) (dirDiffQ (get_branch_pipe d other pipe.id))
  rw [get_dir_eq, get_dir_eq, switch_agree]

/-- The whole run can be evaluated with the computable classifier. -/
theorem auto_fix_eval (d : Doc) : auto_fix d = runWith swPipeQ d := by
  unfold auto_fix
  rw [swPipe_agree]

/-! ## Parameter-store lemmas -/

theorem find?_update_ne (l : List (String × Param)) (nm : String) (v : Int)
    (nm' : String) (h : nm' ≠ nm) :
    (updateFirstParam l nm v).find? (fun q => q.1 == nm') =
      l.find? (fun q => q.1 == nm') := by
  induction l with
  | nil => rfl
  | cons hd t ih =>
    obtain ⟨n, p⟩ := hd
    by_cases h1 : n = nm
    · subst h1
      have h2 : (n == nm') = false := by
        simp only [beq_eq_false_iff_ne, ne_eq]
        exact fun hc => h (hc ▸ rfl)
      simp [updateFirstParam, List.find?_cons, h2]
    · have h1' : (n == nm) = false := by simp [h1]
      by_cases h2 : n = nm'
      · subst h2
        simp [updateFirstParam, h1', List.find?_cons]
      · have h2' : (n == nm') = false := by simp [h2]
        simp [updateFirstParam, h1', h2', List.find?_cons, ih]

theorem find?_update_eq (l : List (String × Param)) (nm : String) (v : Int) :
    (updateFirstParam l nm v).find? (fun q => q.1 == nm) =
      (l.find? (fun q => q.1 == nm)).map (fun q => (q.1, { q.2 with value := v })) := by
  induction l with
  | nil => rfl
  | cons hd t ih =>
    obtain ⟨n, p⟩ := hd
    by_cases h1 : n = nm
    · subst h1
      simp [updateFirstParam, List.find?_cons]
    · have h1' : (n == nm) = false := by simp [h1]
      simp [updateFirstParam, h1', List.find?_cons, ih]

theorem lookupParam_set_ne (f : Fitting) (nm : String) (v : Int) (nm' : String)
    (h : nm' ≠ nm) :
    lookupParam (setParamValue f nm v) nm' = lookupParam f nm' := by
  unfold lookupParam setParamValue
  rw [find?_update_ne _ _ _ _ h]

theorem lookupParam_set_eq (f : Fitting) (nm : String) (v : Int) :
    lookupParam (setParamValue f nm v) nm =
      (lookupParam f nm).map (fun p => { p with value := v }) := by
  unfold lookupParam setParamValue
  rw [find?_update_eq]
  cases l : f.params.find? (fun q => q.1 == nm) <;> rfl

theorem setParamValue_shape (f : Fitting) (nm : String) (v : Int) :
    sameShape f (setParamValue f nm v) :=
  ⟨rfl, rfl, rfl, rfl, rfl, rfl, rfl, rfl, rfl, rfl⟩

theorem sameShape_refl (f : Fitting) : sameShape f f :=
  ⟨rfl, rfl, rfl, rfl, rfl, rfl, rfl, rfl, rfl, rfl⟩

theorem sameShape_trans {f g h : Fitting} (h1 : sameShape f g) (h2 : sameShape g h) :
    sameShape f h := by
  obtain ⟨a1, a2, a3, a4, a5, a6, a7, a8, a9, a10⟩ := h1
  obtain ⟨b1, b2, b3, b4, b5, b6, b7, b8, b9, b10⟩ := h2
  exact ⟨b1.trans a1, b2.trans a2, b3.trans a3, b4.trans a4, b5.trans a5,
    b6.trans a6, b7.trans a7, b8.trans a8, b9.trans a9, b10.trans a10⟩

theorem sameShape.canFlip {f g : Fitting} (h : sameShape f g) :
    g.canFlipHand = f.canFlipHand := h.2.2.2.2.2.2.1

theorem sameShape.flipF {f g : Fitting} (h : sameShape f g) :
    g.flipFaults = f.flipFaults := h.2.2.2.2.2.2.2.1

theorem sameShape.lookups {f g : Fitting} (h : sameShape f g) :
    g.faultyLookups = f.faultyLookups := h.2.2.2.2.2.2.2.2.2

theorem sameShape.idEq {f g : Fitting} (h : sameShape f g) :
    g.id = f.id := h.1

/-- `set_yesno_param` either faults, or returns the fitting unchanged, or
writes the single coerced value. -/
theorem set_yesno_cases (f : Fitting) (nm : String) (v : Option Bool) :
    set_yesno_param f nm v = .error () ∨ set_yesno_param f nm v = .ok f ∨
      set_yesno_param f nm v =
        .ok (setParamValue f nm (if truthy v then 1 else 0)) := by
  unfold set_yesno_param
  by_cases h1 : nm ∈ f.faultyLookups
  · left; simp [h1]
  · cases h2 : lookupParam f nm with
    | none => right; left; simp [h1, h2]
    | some p =>
      by_cases h3 : p.storage = StorageTy.integer
      · by_cases h4 : p.setFaults = true
        · right; left; simp [h1, h2, h3, h4]
        · right; right
          simp only [Bool.not_eq_true] at h4
          simp [h1, h2, h3, h4]
      · right; left; simp [h1, h2, h3]

theorem set_yesno_shape {f g : Fitting} {nm : String} {v : Option Bool}
    (h : set_yesno_param f nm v = .ok g) : sameShape f g := by
  rcases set_yesno_cases f nm v with hc | hc | hc <;> rw [hc] at h
  · cases h
  · cases h; exact sameShape_refl f
  · cases h; exact setParamValue_shape f nm _

theorem foldM_set_shape (pm : List (String × Option Bool)) :
    ∀ f g : Fitting,
      pm.foldlM (fun g nv => set_yesno_param g nv.1 nv.2) f = .ok g →
      sameShape f g := by
  induction pm with
  | nil => intro f g h; cases h; exact sameShape_refl f
  | cons hd t ih =>
    intro f g h
    rw [List.foldlM_cons] at h
    cases hstep : set_yesno_param f hd.1 hd.2 with
    | error e => rw [hstep] at h; cases h
    | ok f1 =>
      rw [hstep] at h
      exact sameShape_trans (set_yesno_shape hstep) (ih f1 g h)

/-- The first component of `try_update_fitting` keeps the fitting's
identity (and whole shape, flip state aside). -/
theorem try_update_fst_id (f : Fitting) (pm : List (String × Option Bool))
    (flip : Bool) : (try_update_fitting f pm flip).1.id = f.id := by
  unfold try_update_fitting
  cases h : pm.foldlM (fun g nv => set_yesno_param g nv.1 nv.2) f with
  | error e => rfl
  | ok f' =>
    have hs := foldM_set_shape pm f f' h
    dsimp only
    split_ifs with h1 h2
    · rfl
    · exact hs.1
    · exact hs.1

/-- A plan whose every target parameter is writable applies cleanly: the
fold succeeds and performs exactly the ordered assignments. -/
theorem apply_plan_ok (pm : List (String × Option Bool)) :
    ∀ f : Fitting, (∀ nm ∈ pm.map Prod.fst, paramWritable f nm) →
      pm.foldlM (fun g nv => set_yesno_param g nv.1 nv.2) f = .ok (planFold f pm) := by
  induction pm with
  | nil => intro f _; rfl
  | cons hd t ih =>
    intro f h
    obtain ⟨nm, v⟩ := hd
    obtain ⟨hnf, p, hp, hst, hsf⟩ := h nm (List.mem_cons_self _ _)
    have hstep : set_yesno_param f nm v =
        .ok (setParamValue f nm (if truthy v then 1 else 0)) := by
      unfold set_yesno_param
      simp [hnf, hp, hst, hsf]
    rw [List.foldlM_cons, hstep]
    have hpf : planFold f ((nm, v) :: t) =
        planFold (setParamValue f nm (if truthy v then 1 else 0)) t := rfl
    rw [hpf]
    apply ih
    intro nm' hmem
    obtain ⟨hnf', p', hp', hst', hsf'⟩ := h nm' (List.mem_cons_of_mem _ hmem)
    refine ⟨hnf', ?_⟩
    by_cases he : nm' = nm
    · subst he
      rw [lookupParam_set_eq, hp']
      exact ⟨{ p' with value := if truthy v then 1 else 0 }, rfl, hst', hsf'⟩
    · rw [lookupParam_set_ne _ _ _ _ he]
      exact ⟨p', hp', hst', hsf'⟩

/-- With every parameter writable and no flip requested, the transaction
commits: the plan is applied in full and the call reports `True`. -/
theorem try_update_ok (f : Fitting) (pm : List (String × Option Bool))
    (h : ∀ nm ∈ pm.map Prod.fst, paramWritable f nm) :
    try_update_fitting f pm false = (planFold f pm, true) := by
  unfold try_update_fitting
  rw [apply_plan_ok pm f h]
  rfl

/-! ## Classifier stage characterizations -/

theorem VecR.norm1_of_unit {v : VecR} (h : v.normSq = 1) : v.norm1 = v := by
  show (⟨v.x / Real.sqrt v.normSq, v.y / Real.sqrt v.normSq,
    v.z / Real.sqrt v.normSq⟩ : VecR) = v
  rw [h, Real.sqrt_one, div_one, div_one, div_one]

theorem flow_dir_of_withFlow_iff (d : ℝ) :
    flow_dir_of d = some FlowDir.withFlow ↔ d > 0.7 := by
  unfold flow_dir_of
  by_cases h1 : d > 0.7
  · simp [h1]
  · by_cases h2 : d < -0.7 <;> simp [h1, h2]

theorem flow_dir_of_against_iff (d : ℝ) :
    flow_dir_of d = some FlowDir.against ↔ d < -0.7 := by
  unfold flow_dir_of
  by_cases h1 : d > 0.7
  · have h2 : ¬ d < -0.7 := by linarith
    simp [h1, h2]
  · by_cases h2 : d < -0.7 <;> simp [h1, h2]

theorem side_of_right_iff (cz : ℝ) :
    side_of cz = some Side.right ↔ cz > 0.1 := by
  unfold side_of
  by_cases h1 : cz > 0.1
  · simp [h1]
  · by_cases h2 : cz < -0.1 <;> simp [h1, h2]

theorem side_of_left_iff (cz : ℝ) :
    side_of cz = some Side.left ↔ cz < -0.1 := by
  unfold side_of
  by_cases h1 : cz > 0.1
  · have h2 : ¬ cz < -0.1 := by linarith
    simp [h1, h2]
  · by_cases h2 : cz < -0.1 <;> simp [h1, h2]

/-- C2: on normalized direction vectors the refined classifier is exactly
the thresholded flow/side product: With iff `dot > 0.7`, Against iff
`dot < -0.7`, Right iff `cross_z > 0.1`, Left iff `cross_z < -0.1`, the
result is `none` (Skip) unless both stages decide, and then it is the
four-cell table Left/With ↦ false, Left/Against ↦ true, Right/With ↦ true,
Right/Against ↦ false. -/
theorem determine_switch_table (m b : VecR) (hm : m.normSq = 1)
    (hb : b.normSq = 1) :
    (flow_dir_of (m.dot b) = some FlowDir.withFlow ↔ m.dot b > 0.7) ∧
    (flow_dir_of (m.dot b) = some FlowDir.against ↔ m.dot b < -0.7) ∧
    (side_of ((m.cross b).z) = some Side.right ↔ (m.cross b).z > 0.1) ∧
    (side_of ((m.cross b).z) = some Side.left ↔ (m.cross b).z < -0.1) ∧
    (determine_switch_excentriciteit (some m) (some b) =
      match flow_dir_of (m.dot b), side_of ((m.cross b).z) with
      | some fd, some sd => some (switch_table sd fd)
      | _, _ => none) ∧
    switch_table Side.left FlowDir.withFlow = false ∧
    switch_table Side.left FlowDir.against = true ∧
    switch_table Side.right FlowDir.withFlow = true ∧
    switch_table Side.right FlowDir.against = false := by
  refine ⟨flow_dir_of_withFlow_iff _, flow_dir_of_against_iff _, side_of_right_iff _,
    side_of_left_iff _, ?_, rfl, rfl, rfl, rfl⟩
  have he : determine_switch_excentriciteit (some m) (some b) =
      match flow_dir_of (m.norm1.dot b.norm1),
            side_of ((m.norm1.cross b.norm1).z) with
      | some fd, some sd => some (switch_table sd fd)
      | _, _ => none := rfl
  rw [he, VecR.norm1_of_unit hm, VecR.norm1_of_unit hb]

theorem determine_switch_table_witness :
    flow_dir_of (VecR.dot ⟨1, 0, 0⟩ ⟨0, 1, 0⟩) = some FlowDir.withFlow ↔
      VecR.dot ⟨1, 0, 0⟩ ⟨0, 1, 0⟩ > 0.7 :=
  (determine_switch_table ⟨1, 0, 0⟩ ⟨0, 1, 0⟩
    (by norm_num [VecR.normSq]) (by norm_num [VecR.normSq])).1

/-! ## C8 helpers: behaviour of the flow stage under negation -/

theorem VecR.normSq_neg (v : VecR) : (-v).normSq = v.normSq := by
  show (-v.x) ^ 2 + (-v.y) ^ 2 + (-v.z) ^ 2 = v.x ^ 2 + v.y ^ 2 + v.z ^ 2
  ring

theorem VecR.norm1_neg (v : VecR) : (-v).norm1 = -(v.norm1) := by
  show (⟨(-v.x) / Real.sqrt ((-v).normSq), (-v.y) / Real.sqrt ((-v).normSq),
    (-v.z) / Real.sqrt ((-v).normSq)⟩ : VecR) = _
  rw [VecR.normSq_neg]
  show _ = (⟨-(v.x / Real.sqrt v.normSq), -(v.y / Real.sqrt v.normSq),
    -(v.z / Real.sqrt v.normSq)⟩ : VecR)
  rw [neg_div, neg_div, neg_div]

theorem VecR.dot_neg_left (a b : VecR) : (-a).dot b = -(a.dot b) := by
  show (-a.x) * b.x + (-a.y) * b.y + (-a.z) * b.z =
    -(a.x * b.x + a.y * b.y + a.z * b.z)
  ring

theorem VecR.dot_neg_neg (a b : VecR) : (-a).dot (-b) = a.dot b := by
  show (-a.x) * (-b.x) + (-a.y) * (-b.y) + (-a.z) * (-b.z) =
    a.x * b.x + a.y * b.y + a.z * b.z
  ring

/-- C8: for direction pairs whose (normalized) dot product exceeds the
flow threshold in magnitude, negating one input flips the flow class
(`Against` iff the negated pair is `With`), and negating both inputs
leaves the flow class unchanged. -/
theorem flow_antisymmetry (v w : VecR)
    (h : 0.7 < |v.norm1.dot w.norm1|) :
    (flowClass v w = some FlowDir.against ↔
      flowClass (-v) w = some FlowDir.withFlow) ∧
    flowClass (-v) (-w) = flowClass v w := by
  constructor
  · unfold flowClass
    rw [VecR.norm1_neg, VecR.dot_neg_left, flow_dir_of_against_iff,
      flow_dir_of_withFlow_iff]
    constructor <;> intro h1 <;> [linarith; linarith]
  · unfold flowClass
    rw [VecR.norm1_neg, VecR.norm1_neg, VecR.dot_neg_neg]

theorem flow_antisymmetry_witness :
    flowClass ⟨1, 0, 0⟩ ⟨-1, 0, 0⟩ = some FlowDir.against ↔
      flowClass (-(⟨1, 0, 0⟩ : VecR)) ⟨-1, 0, 0⟩ = some FlowDir.withFlow := by
  have h1 : (⟨1, 0, 0⟩ : VecR).norm1 = ⟨1, 0, 0⟩ :=
    VecR.norm1_of_unit (by norm_num [VecR.normSq])
  have h2 : (⟨-1, 0, 0⟩ : VecR).norm1 = ⟨-1, 0, 0⟩ :=
    VecR.norm1_of_unit (by norm_num [VecR.normSq])
  exact (flow_antisymmetry ⟨1, 0, 0⟩ ⟨-1, 0, 0⟩
    (by rw [h1, h2]; norm_num [VecR.dot])).1

/-! ## C7: direction vectors of segments -/

theorem VecQ.normSq_ne_zero {v : VecQ} (h : v ≠ ⟨0, 0, 0⟩) : v.normSq ≠ 0 := by
  intro hc
  obtain ⟨hx, hy, hz⟩ := VecQ.comps_of_normSqQ_zero hc
  exact h (by calc v = ⟨v.x, v.y, v.z⟩ := rfl
    _ = ⟨0, 0, 0⟩ := by rw [hx, hy, hz])

theorem VecQ.sub_ne_zero_of_ne {a b : VecQ} (h : a ≠ b) :
    b - a ≠ (⟨0, 0, 0⟩ : VecQ) := by
  intro hc
  rw [VecQ.sub_def, VecQ.mk.injEq] at hc
  obtain ⟨h1, h2, h3⟩ := hc
  refine h ?_
  calc a = ⟨a.x, a.y, a.z⟩ := rfl
    _ = ⟨b.x, b.y, b.z⟩ := by
        rw [sub_eq_zero.mp h1, sub_eq_zero.mp h2, sub_eq_zero.mp h3]
    _ = b := rfl

/-- C7: `get_direction_vector` returns `none` on a `None` pipe and on a
missing (or degenerate, hence unretrievable) centerline, and the
normalized endpoint difference — a unit vector — on a valid non-degenerate
two-point centerline.  The embedding is a total function, so no input
raises. -/
theorem get_direction_vector_spec (p : Option Pipe) :
    (p = none → get_direction_vector p = none) ∧
    (∀ pipe, p = some pipe → pipe.location = none →
      get_direction_vector p = none) ∧
    (∀ pipe c, p = some pipe → pipe.location = some c →
      get_direction_vector p = some ((toVecR (c.val.2 - c.val.1)).norm1) ∧
      ((toVecR (c.val.2 - c.val.1)).norm1).normSq = 1) := by
  refine ⟨?_, ?_, ?_⟩
  · rintro rfl; rfl
  · rintro pipe rfl hl
    show (match pipe.location with
      | none => none
      | some c => some (toVecR ((c : VecQ × VecQ).2 - (c : VecQ × VecQ).1)).norm1) =
      none
    rw [hl]
  · rintro pipe c rfl hl
    constructor
    · show (match pipe.location with
        | none => none
        | some c => some (toVecR ((c : VecQ × VecQ).2 - (c : VecQ × VecQ).1)).norm1) =
        _
      rw [hl]
    · apply VecR.norm1_normSq
      rw [toVecR_normSq]
      have hne : c.val.2 - c.val.1 ≠ (⟨0, 0, 0⟩ : VecQ) :=
        VecQ.sub_ne_zero_of_ne c.property
      exact_mod_cast VecQ.normSq_ne_zero hne

theorem get_direction_vector_spec_witness :
    get_direction_vector (some demoPipe7) =
      some ((toVecR ((⟨3, 4, 0⟩ : VecQ) - ⟨0, 0, 0⟩)).norm1) ∧
    ((toVecR ((⟨3, 4, 0⟩ : VecQ) - ⟨0, 0, 0⟩)).norm1).normSq = 1 :=
  (get_direction_vector_spec (some demoPipe7)).2.2 demoPipe7
    ⟨(⟨0, 0, 0⟩, ⟨3, 4, 0⟩), by decide⟩ rfl rfl

/-! ## C1: Tee plan when the classifier abstains -/

/-- C1 counterexample: on `demoDoc1` the classifier abstains (main
`(1,0,0)`, branch `(0,1,0)`), yet the run *overwrites*
`switch_excentriciteit` from `1` to `0` (`1 if None else 0` coerces the
abstention to `0`) — the parameter is not left unchanged. -/
theorem tee_skip_overwrites_switch :
    determine_switch_excentriciteit (get_direction_vector (some demoMain1))
      (get_direction_vector (some demoBranch1)) = none ∧
    paramOfDoc demoDoc1 2 "switch_excentriciteit" = some 1 ∧
    paramOfDoc (auto_fix demoDoc1).doc 2 "switch_excentriciteit" = some 0 ∧
    (auto_fix demoDoc1).updated = 1 := by
  refine ⟨?_, by with_unfolding_all decide, ?_, ?_⟩
  · rw [get_dir_eq, get_dir_eq, switch_agree]
    with_unfolding_all decide
  · rw [auto_fix_eval]
    with_unfolding_all decide
  · rw [auto_fix_eval]
    with_unfolding_all decide

/-- C1 (amended): when the classifier abstains (`switch_ex = None`), the
main-pass step still applies the Tee plan and counts the fitting as
updated — but Python's `1 if on else 0` coerces `None` to `0`, so
`switch_excentriciteit` is *written to* `0` (false) rather than left
unset; the short-pattern parameters and `reducer_eccentric` are set to
`1` as described. -/
theorem tee_plan_on_skip (swOf : Doc → Fitting → Option Bool) (st : RunState)
    (refId : ℕ) (f : Fitting)
    (hnv : refId ∉ st.visited)
    (hget : getElement st.doc refId = some (Element.fitting f))
    (hv : f.valid = true) (hsy : f.symbolOk = true) (hfo : f.familyOk = true)
    (hnm : ¬ f.familyName = "")
    (hpre : strStartsWith f.familyName "NLRS_52_PIF_UN_PE multi T-stuk" = true)
    (hsw : swOf st.doc f = none)
    (hw : ∀ nm ∈ (teeParamMap none).map Prod.fst, paramWritable f nm) :
    processRef swOf st refId =
      { st with visited := refId :: st.visited,
                doc := setFitting st.doc (planFold f (teeParamMap none)),
                updated := st.updated + 1 } ∧
    getParamValue (planFold f (teeParamMap none)) "switch_excentriciteit" =
      some 0 ∧
    getParamValue (planFold f (teeParamMap none)) "kort_verloop (kleinste)" =
      some 1 ∧
    getParamValue (planFold f (teeParamMap none)) "kort_verloop (grootste)" =
      some 1 ∧
    getParamValue (planFold f (teeParamMap none)) "reducer_eccentric" = some 1 := by
  have hchain : planFold f (teeParamMap none) =
      setParamValue (setParamValue (setParamValue (setParamValue (setParamValue
        (setParamValue f "kort_verloop (kleinste)" 1) "kort_verloop (grootste)" 1)
        "reducer_eccentric" 1) "switch_excentriciteit" 0) "bend_visible" 1)
        "bend_visible_preserve" 1 := rfl
  refine ⟨?_, ?_, ?_, ?_, ?_⟩
  · unfold processRef
    rw [if_neg hnv]
    simp only [hget, hv, hsy, hfo, Bool.not_true, Bool.false_eq_true, if_false,
      hsw]
    rw [if_neg hnm]
    simp only [hpre, Bool.not_true, Bool.false_eq_true, if_false]
    rw [try_update_ok f (teeParamMap none) hw]
    rfl
  · obtain ⟨-, p, hp, -, -⟩ := hw "switch_excentriciteit" (by decide)
    rw [hchain]
    unfold getParamValue
    rw [lookupParam_set_ne _ _ _ _ (by decide),
      lookupParam_set_ne _ _ _ _ (by decide), lookupParam_set_eq,
      lookupParam_set_ne _ _ _ _ (by decide),
      lookupParam_set_ne _ _ _ _ (by decide),
      lookupParam_set_ne _ _ _ _ (by decide), hp]
    rfl
  · obtain ⟨-, p, hp, -, -⟩ := hw "kort_verloop (kleinste)" (by decide)
    rw [hchain]
    unfold getParamValue
    rw [lookupParam_set_ne _ _ _ _ (by decide),
      lookupParam_set_ne _ _ _ _ (by decide),
      lookupParam_set_ne _ _ _ _ (by decide),
      lookupParam_set_ne _ _ _ _ (by decide),
      lookupParam_set_ne _ _ _ _ (by decide), lookupParam_set_eq, hp]
    rfl
  · obtain ⟨-, p, hp, -, -⟩ := hw "kort_verloop (grootste)" (by decide)
    rw [hchain]
    unfold getParamValue
    rw [lookupParam_set_ne _ _ _ _ (by decide),
      lookupParam_set_ne _ _ _ _ (by decide),
      lookupParam_set_ne _ _ _ _ (by decide),
      lookupParam_set_ne _ _ _ _ (by decide), lookupParam_set_eq,
      lookupParam_set_ne _ _ _ _ (by decide), hp]
    rfl
  · obtain ⟨-, p, hp, -, -⟩ := hw "reducer_eccentric" (by decide)
    rw [hchain]
    unfold getParamValue
    rw [lookupParam_set_ne _ _ _ _ (by decide),
      lookupParam_set_ne _ _ _ _ (by decide),
      lookupParam_set_ne _ _ _ _ (by decide), lookupParam_set_eq,
      lookupParam_set_ne _ _ _ _ (by decide),
      lookupParam_set_ne _ _ _ _ (by decide), hp]
    rfl

theorem tee_plan_on_skip_witness :
    (processRef (swPipeQ demoMain1) ⟨demoDoc1, [], 0, 0⟩ 2).updated = 1 ∧
    getParamValue (planFold demoTee1 (teeParamMap none)) "switch_excentriciteit" =
      some 0 := by
  have hw : ∀ nm ∈ (teeParamMap none).map Prod.fst, paramWritable demoTee1 nm := by
    intro nm hnm
    fin_cases hnm
    · exact ⟨by decide, ⟨StorageTy.integer, 0, false⟩, rfl, rfl, rfl⟩
    · exact ⟨by decide, ⟨StorageTy.integer, 0, false⟩, rfl, rfl, rfl⟩
    · exact ⟨by decide, ⟨StorageTy.integer, 0, false⟩, rfl, rfl, rfl⟩
    · exact ⟨by decide, ⟨StorageTy.integer, 1, false⟩, rfl, rfl, rfl⟩
    · exact ⟨by decide, ⟨StorageTy.integer, 0, false⟩, rfl, rfl, rfl⟩
    · exact ⟨by decide, ⟨StorageTy.integer, 0, false⟩, rfl, rfl, rfl⟩
  have h := tee_plan_on_skip (swPipeQ demoMain1) ⟨demoDoc1, [], 0, 0⟩ 2 demoTee1
    (by decide) (by with_unfolding_all decide) rfl rfl rfl (by decide) (by decide)
    (by with_unfolding_all decide) hw
  exact ⟨by rw [h.1], h.2.1⟩

/-! ## C3: transactional atomicity -/

theorem set_yesno_ok_of_not_fault (f : Fitting) (nm : String) (v : Option Bool)
    (h : nm ∉ f.faultyLookups) :
    ∃ g, set_yesno_param f nm v = .ok g ∧ sameShape f g := by
  unfold set_yesno_param
  rw [if_neg h]
  cases hl : lookupParam f nm with
  | none => exact ⟨f, rfl, sameShape_refl f⟩
  | some p =>
    dsimp only
    by_cases hs : p.storage = StorageTy.integer
    · by_cases hf2 : p.setFaults = true
      · rw [if_pos hs, if_pos hf2]
        exact ⟨f, rfl, sameShape_refl f⟩
      · rw [if_pos hs, if_neg hf2]
        exact ⟨_, rfl, setParamValue_shape f nm _⟩
    · rw [if_neg hs]
      exact ⟨f, rfl, sameShape_refl f⟩

theorem foldM_ok_of_no_faults (pm : List (String × Option Bool)) :
    ∀ f : Fitting, (∀ nm ∈ pm.map Prod.fst, nm ∉ f.faultyLookups) →
      ∃ g, pm.foldlM (fun g nv => set_yesno_param g nv.1 nv.2) f = .ok g ∧
        sameShape f g := by
  induction pm with
  | nil => intro f _; exact ⟨f, rfl, sameShape_refl f⟩
  | cons hd t ih =>
    intro f h
    obtain ⟨g1, hg1, hs1⟩ := set_yesno_ok_of_not_fault f hd.1 hd.2
      (h hd.1 (List.mem_cons_self _ _))
    obtain ⟨g2, hg2, hs2⟩ := ih g1 (fun nm hnm => by
      rw [hs1.lookups]
      exact h nm (List.mem_cons_of_mem _ hnm))
    refine ⟨g2, ?_, sameShape_trans hs1 hs2⟩
    rw [List.foldlM_cons, hg1]
    exact hg2

/-- C3: the per-fitting update is atomic.  If the transactional unit
reports failure, the fitting is exactly its pre-call state (full
rollback); and when no step can fault (no faulting lookups, no flip
fault), the unit commits and reports success. -/
theorem try_update_fitting_atomic (f : Fitting)
    (pm : List (String × Option Bool)) (flip : Bool) :
    ((try_update_fitting f pm flip).2 = false →
      (try_update_fitting f pm flip).1 = f) ∧
    ((∀ nm ∈ pm.map Prod.fst, nm ∉ f.faultyLookups) →
      (flip && f.canFlipHand && f.flipFaults) = false →
      (try_update_fitting f pm flip).2 = true) := by
  constructor
  · intro h
    unfold try_update_fitting at h ⊢
    cases hf : pm.foldlM (fun g nv => set_yesno_param g nv.1 nv.2) f with
    | error e => rfl
    | ok f' =>
      rw [hf] at h
      dsimp only at h ⊢
      by_cases h1 : (flip && f'.canFlipHand) = true
      · rw [if_pos h1] at h ⊢
        by_cases h2 : f'.flipFaults = true
        · rw [if_pos h2]
        · rw [if_neg h2] at h
          exact absurd h (by simp)
      · rw [if_neg h1] at h
        exact absurd h (by simp)
  · intro hnm hff
    obtain ⟨g, hg, hs⟩ := foldM_ok_of_no_faults pm f hnm
    unfold try_update_fitting
    rw [hg]
    dsimp only
    by_cases h1 : (flip && g.canFlipHand) = true
    · rw [if_pos h1]
      have h2 : g.flipFaults = false := by
        rw [hs.flipF]
        rw [hs.canFlip] at h1
        rw [h1, Bool.true_and] at hff
        exact hff
      rw [h2]
      rfl
    · rw [if_neg h1]

theorem try_update_fitting_atomic_witness :
    (try_update_fitting demoAtomF reducerParamMap false).1 = demoAtomF ∧
    (try_update_fitting demoOkF reducerParamMap false).2 = true := by
  constructor
  · exact (try_update_fitting_atomic demoAtomF reducerParamMap false).1
      (by decide)
  · exact (try_update_fitting_atomic demoOkF reducerParamMap false).2
      (by decide) (by decide)

/-! ## C6: silently dropped single assignments -/

/-- C6: an assignment whose parameter is missing, not integer-backed, or
whose `Set` call fails, is a no-op for that assignment alone: the fitting
is unchanged by it, and the rest of the plan proceeds exactly as if the
assignment were absent (same final state, same reported result). -/
theorem assignment_dropped_silently (f : Fitting) (nm : String) (v : Option Bool)
    (rest : List (String × Option Bool)) (flip : Bool)
    (hnf : nm ∉ f.faultyLookups)
    (hdrop : lookupParam f nm = none ∨
      ∃ p, lookupParam f nm = some p ∧
        (p.storage ≠ StorageTy.integer ∨ p.setFaults = true)) :
    set_yesno_param f nm v = .ok f ∧
    try_update_fitting f ((nm, v) :: rest) flip = try_update_fitting f rest flip := by
  have h1 : set_yesno_param f nm v = .ok f := by
    unfold set_yesno_param
    rw [if_neg hnf]
    rcases hdrop with h | ⟨p, hp, hcase⟩
    · rw [h]
    · rw [hp]
      dsimp only
      rcases hcase with hs | hf2
      · rw [if_neg hs]
      · by_cases hs : p.storage = StorageTy.integer
        · rw [if_pos hs, if_pos hf2]
        · rw [if_neg hs]
  refine ⟨h1, ?_⟩
  unfold try_update_fitting
  rw [List.foldlM_cons, h1]
  rfl

theorem assignment_dropped_silently_witness :
    set_yesno_param demoMixF "a" (some true) = .ok demoMixF ∧
    try_update_fitting demoMixF [("a", some true), ("d", some true)] false =
      try_update_fitting demoMixF [("d", some true)] false :=
  assignment_dropped_silently demoMixF "a" (some true) [("d", some true)] false
    (by decide) (Or.inr ⟨⟨StorageTy.double, 3, false⟩, rfl, Or.inl (by decide)⟩)

/-! ## Document preservation machinery -/

theorem find?_map_setIf (l : List Fitting) (g : Fitting) (i : ℕ) (h : g.id ≠ i) :
    (l.map (fun x => if x.id == g.id then g else x)).find? (fun x => x.id == i) =
      l.find? (fun x => x.id == i) := by
  induction l with
  | nil => rfl
  | cons x t ih =>
    simp only [List.map_cons, List.find?_cons]
    by_cases hx : (x.id == g.id) = true
    · have hxeq : x.id = g.id := eq_of_beq hx
      have hgi : (g.id == i) = false := beq_eq_false_iff_ne.mpr h
      have hxi : (x.id == i) = false :=
        beq_eq_false_iff_ne.mpr (fun hc => h (hxeq ▸ hc))
      rw [if_pos hx, hgi, hxi]
      exact ih
    · rw [if_neg hx]
      cases hxi : (x.id == i) with
      | true => rfl
      | false => exact ih

theorem getFitting_setFitting_ne (d : Doc) (g : Fitting) (i : ℕ) (h : g.id ≠ i) :
    getFitting (setFitting d g) i = getFitting d i := by
  unfold getFitting setFitting
  exact find?_map_setIf d.fittings g i h

theorem getElement_fitting_id {d : Doc} {j : ℕ} {g : Fitting}
    (h : getElement d j = some (Element.fitting g)) :
    g.id = j ∧ getFitting d j = some g := by
  unfold getElement at h
  cases hp : d.pipes.find? (fun p => p.id == j) with
  | some p => rw [hp] at h; cases h
  | none =>
    rw [hp] at h
    cases hf : d.fittings.find? (fun f => f.id == j) with
    | none => rw [hf] at h; cases h
    | some g' =>
      rw [hf] at h
      cases h
      have hid := List.find?_some hf
      exact ⟨eq_of_beq hid, hf⟩

theorem getFitting_id {d : Doc} {j : ℕ} {g : Fitting}
    (h : getFitting d j = some g) : g.id = j := by
  unfold getFitting at h
  have hp := List.find?_some h
  exact eq_of_beq hp

/-- A main-pass step never changes the stored state of a fitting whose
family name is not a Tee name. -/
theorem processRef_preserves (swOf : Doc → Fitting → Option Bool) (st : RunState)
    (refId : ℕ) {i : ℕ} {f : Fitting}
    (hget : getFitting st.doc i = some f)
    (hpre : strStartsWith f.familyName "NLRS_52_PIF_UN_PE multi T-stuk" = false) :
    getFitting (processRef swOf st refId).doc i = some f := by
  unfold processRef
  by_cases hv : refId ∈ st.visited
  · rw [if_pos hv]; exact hget
  · rw [if_neg hv]
    dsimp only
    cases hE : getElement st.doc refId with
    | none => exact hget
    | some el =>
      cases el with
      | pipe p => exact hget
      | fitting other =>
        dsimp only
        split_ifs with h1 h2 h3 h4 h5 h6
        · exact hget
        · exact hget
        · exact hget
        · exact hget
        · exact hget
        · obtain ⟨hid, hgf⟩ := getElement_fitting_id hE
          by_cases hii : refId = i
          · subst hii
            rw [hget] at hgf
            injection hgf with he
            have hT : strStartsWith other.familyName
                "NLRS_52_PIF_UN_PE multi T-stuk" = true := by
              cases hc : strStartsWith other.familyName
                  "NLRS_52_PIF_UN_PE multi T-stuk"
              · exact absurd (by rw [hc]; rfl) h5
              · rfl
            rw [← he, hpre] at hT
            exact absurd hT (by simp)
          · rw [getFitting_setFitting_ne]
            · exact hget
            · rw [try_update_fst_id, hid]
              exact hii
        · exact hget

theorem foldl_processRef_preserves (swOf : Doc → Fitting → Option Bool)
    {i : ℕ} {f : Fitting}
    (hpre : strStartsWith f.familyName "NLRS_52_PIF_UN_PE multi T-stuk" = false)
    (l : List ℕ) :
    ∀ st : RunState, getFitting st.doc i = some f →
      getFitting ((l.foldl (processRef swOf) st).doc) i = some f := by
  induction l with
  | nil => intro st h; exact h
  | cons r t ih =>
    intro st h
    exact ih _ (processRef_preserves swOf st r h hpre)

theorem processPipe_preserves (swPipe : Pipe → Doc → Fitting → Option Bool)
    (pipe : Pipe) {i : ℕ} {f : Fitting}
    (hpre : strStartsWith f.familyName "NLRS_52_PIF_UN_PE multi T-stuk" = false)
    (st : RunState) (h : getFitting st.doc i = some f) :
    getFitting (processPipe swPipe st pipe).doc i = some f := by
  unfold processPipe
  by_cases hq : (!is_pipe_of_type pipe "NLRS_52_PI_PE buis" 160) = true
  · rw [if_pos hq]; exact h
  · rw [if_neg hq]
    have haux : ∀ (ls : List (List ℕ)) (st : RunState),
        getFitting st.doc i = some f →
        getFitting ((ls.foldl
          (fun s refs => refs.foldl (processRef (swPipe pipe)) s) st).doc) i =
          some f := by
      intro ls
      induction ls with
      | nil => intro st h'; exact h'
      | cons refs t ih =>
        intro st h'
        exact ih _ (foldl_processRef_preserves (swPipe pipe) hpre refs st h')
    exact haux _ _ h

theorem bumpCounters_preserves (st : RunState) (res : Fitting × Bool)
    {i : ℕ} {f : Fitting}
    (hget : getFitting st.doc i = some f) (hid : res.1.id ≠ i) :
    getFitting (bumpCounters st res).doc i = some f := by
  unfold bumpCounters
  by_cases hb : res.2 = true
  · rw [if_pos hb]
    dsimp only
    rw [getFitting_setFitting_ne _ _ _ hid]
    exact hget
  · rw [if_neg hb]
    exact hget

/-- A second-pass step never changes the stored state of a fitting whose
family name matches neither dispatch substring. -/
theorem processFitting2_preserves (st : RunState) (fid : ℕ) {i : ℕ} {f : Fitting}
    (hget : getFitting st.doc i = some f)
    (hnb : strContains (strLower f.familyName) "multibocht" = false)
    (hnr : strContains (strLower f.familyName) "multireducer" = false) :
    getFitting (processFitting2 st fid).doc i = some f := by
  unfold processFitting2
  cases hE : getFitting st.doc fid with
  | none => exact hget
  | some g =>
    dsimp only
    have hgid : g.id = fid := getFitting_id hE
    have hres_ne : ∀ pm : List (String × Option Bool), fid ≠ i →
        (try_update_fitting g pm false).1.id ≠ i := by
      intro pm hne
      rw [try_update_fst_id, hgid]
      exact hne
    split_ifs with h1 h2 h3 h4 h5 h6
    · exact hget
    · exact hget
    · exact hget
    · -- elbow branch
      by_cases hii : fid = i
      · subst hii
        rw [hget] at hE
        injection hE with he
        rw [← he, hnb] at h4
        exact absurd h4 (by simp)
      · exact bumpCounters_preserves st _ hget (hres_ne _ hii)
    · exact hget
    · -- reducer branch, not fully connected
      by_cases hii : fid = i
      · subst hii
        rw [hget] at hE
        injection hE with he
        rw [← he, hnr] at h5
        exact absurd h5 (by simp)
      · exact bumpCounters_preserves st _ hget (hres_ne _ hii)
    · exact hget

/-- A whole run never touches a fitting of variant `Other` (family name
matching no dispatch rule). -/
theorem runWith_preserves_other (swPipe : Pipe → Doc → Fitting → Option Bool)
    (d : Doc) {i : ℕ} {f : Fitting}
    (hget : getFitting d i = some f)
    (hpre : strStartsWith f.familyName "NLRS_52_PIF_UN_PE multi T-stuk" = false)
    (hnb : strContains (strLower f.familyName) "multibocht" = false)
    (hnr : strContains (strLower f.familyName) "multireducer" = false) :
    getFitting (runWith swPipe d).doc i = some f := by
  unfold runWith
  have h1 : ∀ (ps : List Pipe) (st : RunState), getFitting st.doc i = some f →
      getFitting ((ps.foldl (processPipe swPipe) st).doc) i = some f := by
    intro ps
    induction ps with
    | nil => intro st h; exact h
    | cons p t ih =>
      intro st h
      exact ih _ (processPipe_preserves swPipe p hpre st h)
  have h2 : ∀ (ids : List ℕ) (st : RunState), getFitting st.doc i = some f →
      getFitting ((ids.foldl processFitting2 st).doc) i = some f := by
    intro ids
    induction ids with
    | nil => intro st h; exact h
    | cons j t ih =>
      intro st h
      exact ih _ (processFitting2_preserves st j h hnb hnr)
  exact h2 _ _ (h1 _ _ hget)

/-! ## Per-step counter discipline -/

/-- A processed Tee bumps exactly one of the two counters by one. -/
theorem processRef_tee_counts (swOf : Doc → Fitting → Option Bool)
    (st : RunState) (refId : ℕ) (f : Fitting)
    (hnv : refId ∉ st.visited)
    (hget : getElement st.doc refId = some (Element.fitting f))
    (hv : f.valid = true) (hsy : f.symbolOk = true) (hfo : f.familyOk = true)
    (hnm : ¬ f.familyName = "")
    (hpre : strStartsWith f.familyName "NLRS_52_PIF_UN_PE multi T-stuk" = true) :
    (processRef swOf st refId).updated + (processRef swOf st refId).skipped =
      st.updated + st.skipped + 1 := by
  unfold processRef
  rw [if_neg hnv]
  simp only [hget, hv, hsy, hfo, Bool.not_true, Bool.false_eq_true, if_false]
  rw [if_neg hnm]
  simp only [hpre, Bool.not_true, Bool.false_eq_true, if_false]
  by_cases hb : (try_update_fitting f
      (teeParamMap (swOf st.doc f)) false).2 = true
  · rw [if_pos hb]
    dsimp only
    omega
  · rw [if_neg hb]
    dsimp only
    omega

/-- A matched Elbow bumps exactly one of the two counters by one. -/
theorem processFitting2_elbow_counts (st : RunState) (fid : ℕ) (f : Fitting)
    (hget : getFitting st.doc fid = some f)
    (hv : f.valid = true) (hsy : f.symbolOk = true) (hfo : f.familyOk = true)
    (hb : strContains (strLower f.familyName) "multibocht" = true) :
    (processFitting2 st fid).updated + (processFitting2 st fid).skipped =
      st.updated + st.skipped + 1 := by
  unfold processFitting2
  simp only [hget, hv, hsy, hfo, Bool.not_true, Bool.false_eq_true, if_false, hb,
    if_true]
  unfold bumpCounters
  by_cases hr : (try_update_fitting f elbowParamMap false).2 = true
  · rw [if_pos hr]
    dsimp only
    omega
  · rw [if_neg hr]
    dsimp only
    omega

/-- A matched Reducer bumps exactly one of the two counters by one
(whether the connectivity guard skips it or the neutral plan runs). -/
theorem processFitting2_reducer_counts (st : RunState) (fid : ℕ) (f : Fitting)
    (hget : getFitting st.doc fid = some f)
    (hv : f.valid = true) (hsy : f.symbolOk = true) (hfo : f.familyOk = true)
    (hnb : strContains (strLower f.familyName) "multibocht" = false)
    (hr : strContains (strLower f.familyName) "multireducer" = true) :
    (processFitting2 st fid).updated + (processFitting2 st fid).skipped =
      st.updated + st.skipped + 1 := by
  unfold processFitting2
  simp only [hget, hv, hsy, hfo, Bool.not_true, Bool.false_eq_true, if_false, hnb,
    hr, if_true]
  by_cases hc : is_reducer_fully_connected f = true
  · rw [if_pos hc]
    dsimp only
    omega
  · rw [if_neg hc]
    unfold bumpCounters
    by_cases hb : (try_update_fitting f reducerParamMap false).2 = true
    · rw [if_pos hb]
      dsimp only
      omega
    · rw [if_neg hb]
      dsimp only
      omega

/-- A second-pass step on a fitting matching neither dispatch substring is
a complete no-op. -/
theorem processFitting2_other_noop (st : RunState) (fid : ℕ) (f : Fitting)
    (hget : getFitting st.doc fid = some f)
    (hnb : strContains (strLower f.familyName) "multibocht" = false)
    (hnr : strContains (strLower f.familyName) "multireducer" = false) :
    processFitting2 st fid = st := by
  unfold processFitting2
  simp only [hget, hnb, hnr, Bool.false_eq_true, if_false]
  split_ifs <;> rfl

/-! ## Visited-set helpers -/

theorem processRef_of_visited (swOf : Doc → Fitting → Option Bool)
    (st : RunState) (refId : ℕ) (h : refId ∈ st.visited) :
    processRef swOf st refId = st := by
  unfold processRef
  rw [if_pos h]

theorem processRef_mem_visited (swOf : Doc → Fitting → Option Bool)
    (st : RunState) (refId : ℕ) :
    refId ∈ (processRef swOf st refId).visited := by
  unfold processRef
  by_cases h : refId ∈ st.visited
  · rw [if_pos h]; exact h
  · rw [if_neg h]
    dsimp only
    cases hE : getElement st.doc refId with
    | none => exact List.mem_cons_self _ _
    | some el =>
      cases el with
      | pipe p => exact List.mem_cons_self _ _
      | fitting other =>
        dsimp only
        split_ifs <;> exact List.mem_cons_self _ _

/-- C10: in the main pass the owner id goes into the visited set *before*
the validity and family checks run: a pipe owner, a missing element, or a
fitting failing any check still gets marked visited (and nothing else
changes); once an id is in the visited set the step is a no-op, so such an
owner stays excluded for the rest of the pass. -/
theorem visited_added_before_checks (swOf : Doc → Fitting → Option Bool)
    (st : RunState) (refId : ℕ) :
    (refId ∉ st.visited → refId ∈ (processRef swOf st refId).visited) ∧
    (refId ∉ st.visited → ∀ p, getElement st.doc refId = some (Element.pipe p) →
      processRef swOf st refId = { st with visited := refId :: st.visited }) ∧
    (refId ∉ st.visited → getElement st.doc refId = none →
      processRef swOf st refId = { st with visited := refId :: st.visited }) ∧
    (refId ∉ st.visited → ∀ f,
      getElement st.doc refId = some (Element.fitting f) →
      (f.valid = false ∨ f.symbolOk = false ∨ f.familyOk = false ∨
        f.familyName = "" ∨
        strStartsWith f.familyName "NLRS_52_PIF_UN_PE multi T-stuk" = false) →
      processRef swOf st refId = { st with visited := refId :: st.visited }) ∧
    (refId ∈ st.visited → processRef swOf st refId = st) := by
  refine ⟨fun _ => processRef_mem_visited swOf st refId, ?_, ?_, ?_,
    processRef_of_visited swOf st refId⟩
  · intro hnv p hE
    unfold processRef
    rw [if_neg hnv]
    simp only [hE]
  · intro hnv hE
    unfold processRef
    rw [if_neg hnv]
    simp only [hE]
  · intro hnv f hE hdisj
    unfold processRef
    rw [if_neg hnv]
    simp only [hE]
    rcases hdisj with hc | hc | hc | hc | hc <;>
      simp only [hc, Bool.not_false, eq_self_iff_true, if_true] <;>
      split_ifs <;> rfl

theorem visited_added_before_checks_witness :
    processRef (swPipeQ demoMain1) ⟨demoDoc1, [], 0, 0⟩ 1 =
      ⟨demoDoc1, [1], 0, 0⟩ ∧
    processRef (swPipeQ demoMain1) ⟨demoDoc1, [1], 0, 0⟩ 1 =
      ⟨demoDoc1, [1], 0, 0⟩ := by
  constructor
  · exact (visited_added_before_checks (swPipeQ demoMain1)
      ⟨demoDoc1, [], 0, 0⟩ 1).2.1 (by decide) demoMain1
      (by with_unfolding_all decide)
  · exact (visited_added_before_checks (swPipeQ demoMain1)
      ⟨demoDoc1, [1], 0, 0⟩ 1).2.2.2.2 (by decide)

/-- C5: an id already visited is never reprocessed, every step leaves the
processed id in the visited set, and on `demoDoc2` — one Tee reachable from
two distinct qualifying main segments — the whole run applies the Tee plan
exactly once: `updated = 1`, `skipped = 0`, the Tee's eccentricity switch
set once (dot ≈ 0.98 with flow, cross-z right). -/
theorem tee_visited_once (swOf : Doc → Fitting → Option Bool) (st : RunState)
    (refId : ℕ) :
    (refId ∈ st.visited → processRef swOf st refId = st) ∧
    refId ∈ (processRef swOf st refId).visited ∧
    (auto_fix demoDoc2).updated = 1 ∧ (auto_fix demoDoc2).skipped = 0 ∧
    paramOfDoc (auto_fix demoDoc2).doc 3 "switch_excentriciteit" = some 1 := by
  refine ⟨processRef_of_visited swOf st refId,
    processRef_mem_visited swOf st refId, ?_, ?_, ?_⟩
  · rw [auto_fix_eval]; with_unfolding_all decide
  · rw [auto_fix_eval]; with_unfolding_all decide
  · rw [auto_fix_eval]; with_unfolding_all decide

theorem tee_visited_once_witness :
    processRef (swPipeQ demoMain2b) ⟨demoDoc2, [3], 1, 0⟩ 3 =
      ⟨demoDoc2, [3], 1, 0⟩ :=
  (tee_visited_once (swPipeQ demoMain2b) ⟨demoDoc2, [3], 1, 0⟩ 3).1 (by decide)

/-- C4: a matched Reducer with at least two foreign connected owners is
only counted as skipped (no parameter of any fitting changes), the neutral
plan is applied exactly when the guard reports fewer than two owners, and
the whole run over `demoDocRed` (a fully connected reducer alone) ends
with `skipped = 1` and an unchanged document. -/
theorem reducer_guard (st : RunState) (fid : ℕ) (f : Fitting)
    (hget : getFitting st.doc fid = some f)
    (hv : f.valid = true) (hsy : f.symbolOk = true) (hfo : f.familyOk = true)
    (hnb : strContains (strLower f.familyName) "multibocht" = false)
    (hr : strContains (strLower f.familyName) "multireducer" = true) :
    (is_reducer_fully_connected f = true →
      processFitting2 st fid = { st with skipped := st.skipped + 1 }) ∧
    (is_reducer_fully_connected f = false →
      processFitting2 st fid =
        bumpCounters st (try_update_fitting f reducerParamMap false)) ∧
    auto_fix demoDocRed = ⟨demoDocRed, [], 0, 1⟩ := by
  have hstep : processFitting2 st fid =
      (if is_reducer_fully_connected f = true then
        { st with skipped := st.skipped + 1 }
       else bumpCounters st (try_update_fitting f reducerParamMap false)) := by
    unfold processFitting2
    simp only [hget, hv, hsy, hfo, Bool.not_true, Bool.false_eq_true, if_false,
      hnb, hr, if_true]
  refine ⟨fun hc => by rw [hstep, if_pos hc],
    fun hc => by rw [hstep, if_neg (by rw [hc]; exact Bool.false_ne_true)], ?_⟩
  rw [auto_fix_eval]
  with_unfolding_all decide

theorem reducer_guard_witness :
    processFitting2 ⟨demoDocRed, [], 0, 0⟩ 9 = ⟨demoDocRed, [], 0, 1⟩ :=
  (reducer_guard ⟨demoDocRed, [], 0, 0⟩ 9 demoRedF (by decide) rfl rfl rfl
    (by decide) (by decide)).1 (by decide)

/-- C9: a Tee processed by the main pass, and a fitting matched as Elbow
or Reducer in the second pass, bumps exactly one of the two counters by
exactly one; a fitting matching neither dispatch substring is a no-op for
the second pass, and an `Other` fitting (no dispatch substring and not a
Tee family) comes out of the whole run with its stored state untouched. -/
theorem counter_discipline :
    (∀ (swOf : Doc → Fitting → Option Bool) (st : RunState) (refId : ℕ)
      (f : Fitting),
      refId ∉ st.visited →
      getElement st.doc refId = some (Element.fitting f) →
      f.valid = true → f.symbolOk = true → f.familyOk = true →
      ¬ f.familyName = "" →
      strStartsWith f.familyName "NLRS_52_PIF_UN_PE multi T-stuk" = true →
      (processRef swOf st refId).updated + (processRef swOf st refId).skipped =
        st.updated + st.skipped + 1) ∧
    (∀ (st : RunState) (fid : ℕ) (f : Fitting),
      getFitting st.doc fid = some f →
      f.valid = true → f.symbolOk = true → f.familyOk = true →
      strContains (strLower f.familyName) "multibocht" = true →
      (processFitting2 st fid).updated + (processFitting2 st fid).skipped =
        st.updated + st.skipped + 1) ∧
    (∀ (st : RunState) (fid : ℕ) (f : Fitting),
      getFitting st.doc fid = some f →
      f.valid = true → f.symbolOk = true → f.familyOk = true →
      strContains (strLower f.familyName) "multibocht" = false →
      strContains (strLower f.familyName) "multireducer" = true →
      (processFitting2 st fid).updated + (processFitting2 st fid).skipped =
        st.updated + st.skipped + 1) ∧
    (∀ (st : RunState) (fid : ℕ) (f : Fitting),
      getFitting st.doc fid = some f →
      strContains (strLower f.familyName) "multibocht" = false →
      strContains (strLower f.familyName) "multireducer" = false →
      processFitting2 st fid = st) ∧
    (∀ (swPipe : Pipe → Doc → Fitting → Option Bool) (d : Doc) (i : ℕ)
      (f : Fitting),
      getFitting d i = some f →
      strStartsWith f.familyName "NLRS_52_PIF_UN_PE multi T-stuk" = false →
      strContains (strLower f.familyName) "multibocht" = false →
      strContains (strLower f.familyName) "multireducer" = false →
      getFitting (runWith swPipe d).doc i = some f) :=
  ⟨processRef_tee_counts, processFitting2_elbow_counts,
    processFitting2_reducer_counts, processFitting2_other_noop,
    fun swPipe d i f hget hpre hnb hnr =>
      runWith_preserves_other swPipe d hget hpre hnb hnr⟩

theorem counter_discipline_witness :
    (processFitting2 ⟨⟨[], [demoElbF]⟩, [], 0, 0⟩ 11).updated +
      (processFitting2 ⟨⟨[], [demoElbF]⟩, [], 0, 0⟩ 11).skipped = 1 ∧
    getFitting (runWith (fun _ _ _ => none) ⟨[], [demoOtherF]⟩).doc 13 =
      some demoOtherF := by
  constructor
  · exact counter_discipline.2.1 ⟨⟨[], [demoElbF]⟩, [], 0, 0⟩ 11 demoElbF
      (by decide) rfl rfl rfl (by decide)
  · exact counter_discipline.2.2.2.2 (fun _ _ _ => none) ⟨[], [demoOtherF]⟩ 13
      demoOtherF (by decide) (by decide) (by decide) (by decide)
